import Mathlib

set_option maxHeartbeats 1000000

/-!
Shallow embedding of the BSON view/iterator/validator/mutation core of the
repository (libbson `bson2` experimental sources).  Byte buffers are modelled
as `List Nat` (one entry per byte; well-formed buffers hold values < 256) and
pointers as byte offsets into the buffer.  Machine integers are modelled by
`Nat`/`Int` with explicit conversions where the C converts between widths.

Sources embedded here:
 * the element size oracle `_bson_valsize` / `_bson_value_re_len` and the
   lazy iterator `_bson_iterator_at` / `bson_next` / `bson_begin`
   (src/unnamed/part_008, first document, lines 40-861);
 * the view constructor `bson_view_from_data` (same file, lines 179-218);
 * the second lazy iterator variant (src/src/libbson/src/bson2/view.h);
 * the eager validator `_validate_document` (src/src/libbson/src/bson/bson-view.c);
 * the mutation splice/insert primitives `_bson_splice_region`,
   `_bson_prep_element_region`, `bson_insert_binary` (src/unnamed/part_004).
-/

/-- Source constant `INT32_MAX` of the C sources. -/
def INT32_MAX : Int := 2147483647

/-- Bounds-checked byte read.  `none` models a dereference outside the buffer
`B` (an out-of-bounds access of the C program), including reads at negative
offsets. -/
def byteAt? (B : List Nat) (i : Int) : Option Nat :=
  if i < 0 then none else B[i.toNat]?

/-- Little-endian 32-bit read, `bson_read_uint32_le` (part_008 lines 40-52).
Total; used by code paths whose in-boundedness is a precondition of the
source (the source reads the four bytes unconditionally). -/
def readU32LE (B : List Nat) (off : Nat) : Nat :=
  B.getD off 0 +
    256 * (B.getD (off + 1) 0 +
      256 * (B.getD (off + 2) 0 + 256 * B.getD (off + 3) 0))

/-- Bounds-checked little-endian 32-bit read (for the eager validator, whose
accesses claim C1 audits). -/
def readU32at? (B : List Nat) (i : Int) : Option Nat := do
  let b0 ← byteAt? B i
  let b1 ← byteAt? B (i + 1)
  let b2 ← byteAt? B (i + 2)
  let b3 ← byteAt? B (i + 3)
  pure (b0 + 256 * (b1 + 256 * (b2 + 256 * b3)))

/-- Overwrite the bytes of `B` starting at offset `i` with `xs`
(models `memcpy`/`memmove`+`memset` writes into a buffer). -/
def overwriteFrom (B : List Nat) (i : Nat) (xs : List Nat) : List Nat :=
  B.take i ++ xs ++ B.drop (i + xs.length)

/-- Source function `_bson_write_uint32le` (part_004 lines 34-42): store a 32-bit value as four
little-endian bytes. -/
def writeU32LE (B : List Nat) (off : Nat) (v : Nat) : List Nat :=
  overwriteFrom B off [v % 256, v / 256 % 256, v / 65536 % 256, v / 16777216 % 256]

/-- Source function `strnlen(s, n)`: number of bytes before the first NUL, at most `n`.
Scanning is relative to buffer offset `off`; bytes past the end of the buffer
read as 0 via `getD` (the callers establish that a NUL exists in bounds). -/
def strnlenAt (B : List Nat) (off : Nat) : Nat → Nat
  | 0 => 0
  | n + 1 => if B.getD off 0 = 0 then 0 else strnlenAt B (off + 1) n + 1

/-- Source function `strlen(s)` starting at buffer offset `off`: scan to the first NUL.  The
fuel `B.length - off` suffices because `getD` yields 0 at or past the end of
the buffer (the callers guarantee an in-bounds NUL). -/
def strlenAt (B : List Nat) (off : Nat) : Nat :=
  strnlenAt B off (B.length - off)

/-- The C conversion `(int32_t) u` of a `uint32_t` value (two's complement). -/
def int32ofUInt32 (n : Nat) : Int :=
  if n < 2147483648 then (n : Int) else (n : Int) - 4294967296

/-- The `const_sizes` table of `_bson_valsize` (part_008 lines 451-516):
minimum byte count consumed per type tag; `INT32_MAX` marks tags that either
are invalid or (for regex, 0x0b) deliberately trigger the overrun guard.
Tags 0x7f (maxkey) and 0xff (minkey) are valid with size 0. -/
def constSizes (tag : Nat) : Int :=
  match tag with
  | 0x0 => 0
  | 0x1 => 8
  | 0x2 => 4
  | 0x3 => 0
  | 0x4 => 0
  | 0x5 => 4 + 1
  | 0x6 => 0
  | 0x7 => 12
  | 0x8 => 1
  | 0x9 => 8
  | 0xa => 0
  | 0xb => INT32_MAX
  | 0xc => 12
  | 0xd => 4
  | 0xe => 4
  | 0xf => 4 + 4
  | 0x10 => 4
  | 0x11 => 8
  | 0x12 => 8
  | 0x13 => 16
  | 0x7f => 0
  | 0xff => 0
  | _ => INT32_MAX

/-- The `varsize_pick` table of `_bson_valsize` (part_008 lines 525-547):
whether the tag's value carries a 4-byte length. -/
def varsizePick (tag : Nat) : Bool :=
  match tag with
  | 0x2 | 0x3 | 0x4 | 0x5 | 0xc | 0xd | 0xe | 0xf => true
  | _ => false

/-- Source function `_bson_value_re_len` (part_008 lines 380-418): byte length of a regex
value (two NUL-terminated strings), or `-1` (negated `BSON_ITER_SHORT_READ`)
when fewer than two NUL terminators remain within `maxlen`. -/
def bson_value_re_len (B : List Nat) (valptr : Nat) (maxlen : Int) : Int :=
  let reLen : Int := strnlenAt B valptr maxlen.toNat + 1
  let optBytesAvail : Int := maxlen - reLen
  let optLen : Int := strnlenAt B (valptr + reLen.toNat) optBytesAvail.toNat
  let trailingBytes : Int := optBytesAvail - optLen
  if trailingBytes < 2 then -1
  else reLen + (optLen + 1)

/-- Source function `_bson_valsize` (part_008 lines 432-586): size in bytes of the value of an
element with type tag `tag` whose value begins at offset `valptr`, given
`valMaxlen` bytes available, or a negated `bson_iterator_error_cond`
(`-2` = invalid type, `-4` = invalid length). -/
def bson_valsize (B : List Nat) (tag : Nat) (valptr : Nat) (valMaxlen : Int) : Int :=
  let constSize := constSizes tag
  if varsizePick tag ∧ ¬(4 < valMaxlen) then
    -- we require at least four bytes to read the length of the value
    -4
  else
    let fullLen : Int :=
      constSize + (if varsizePick tag then (readU32LE B valptr : Int) else 0)
    if fullLen < valMaxlen then fullLen
    else if tag = 0xb then bson_value_re_len B valptr valMaxlen
    else if constSize = INT32_MAX then -2
    else -4

example : bson_valsize [104, 101, 0] 0x1 0 2 = -4 := by decide
example : bson_valsize [104, 101, 0, 0, 0, 0, 0, 0, 0, 0] 0x1 0 9 = 8 := by decide
example : bson_valsize [2, 0, 0, 0, 97, 0, 0] 0x2 0 7 = 6 := by decide
example : bson_valsize [97, 0, 105, 0, 0] 0xb 0 5 = 4 := by decide
example : bson_valsize [97, 0, 105, 0, 0] 0xb 0 4 = -1 := by decide
example : bson_valsize [0, 0, 0, 0, 0] 0x20 0 5 = -2 := by decide

/-- The iterator of part_008 (first document, lines 274-281): offset of the
current element, remaining bytes (`_rlen`, negative values encode a
`bson_iterator_error_cond`), and the key length (`_keylen`, never negative in
any reachable state, so modelled as `Nat`). -/
structure bson_iterator where
  ptr : Nat
  rlen : Int
  keylen : Nat
deriving DecidableEq, Repr

/-- Source function `_bson_iterator_error` (part_008 lines 352-356). -/
def bson_iterator_error (err : Nat) : bson_iterator :=
  ⟨0, -(err : Int), 0⟩

/-- Source function `bson_iterator_done` (part_008 lines 294-298): the past-the-end NUL
position has `_rlen = 1`; errors have `_rlen <= 0`. -/
def bson_iterator_done (it : bson_iterator) : Bool :=
  it.rlen ≤ 1

/-- The set of fixed-size type tags for which `_bson_iterator_at` skips the
size check whenever more than 16 bytes remain (part_008 lines 755-765). -/
def skipCheckType (t : Nat) : Bool :=
  t = 0xa || t = 0x6 || t = 0x11 || t = 0x9 || t = 0x1 || t = 0x8 ||
    t = 0x13 || t = 0x10 || t = 0x12

/-- Source function `_bson_iterator_at` (part_008 lines 610-779): parse the element starting
at offset `data` with `maxlen` bytes remaining.  Preconditions of the source
(asserted there): `maxlen > 0`, the final remaining byte is NUL, and the
buffer extends to `data + maxlen`.  Outside those preconditions the C is
undefined; this model then falls through to the SHORT_READ error branch. -/
def bson_iterator_at (B : List Nat) (data : Nat) (maxlen : Int) : bson_iterator :=
  if maxlen = 1 then
    -- only the document's trailing NUL remains
    ⟨data, 1, 0⟩
  else
    let keylen := strlenAt B (data + 1)
    let p1 : Int := (maxlen - 1) - keylen
    let valMaxlen : Int := p1 - 1
    if valMaxlen < 1 then bson_iterator_error 1  -- BSON_ITER_SHORT_READ
    else
      let type := B.getD data 0
      if valMaxlen > 16 ∧ skipCheckType type then ⟨data, maxlen, keylen⟩
      else
        let vallen := bson_valsize B type (data + 1 + keylen + 1) valMaxlen
        if vallen < 0 then bson_iterator_error (-vallen).toNat
        else ⟨data, maxlen, keylen⟩

/-- Source function `bson_next` (part_008 lines 805-816): skip the current element
(`1 + keylen + 1 + value-size`, with the value size recomputed against an
`INT32_MAX` bound) and parse at the next offset.  Precondition of the source:
the iterator is not done. -/
def bson_next (B : List Nat) (it : bson_iterator) : bson_iterator :=
  let valOffset : Int := 1 + it.keylen + 1
  let skipSize : Int :=
    valOffset + bson_valsize B (B.getD it.ptr 0) (it.ptr + 1 + it.keylen + 1) INT32_MAX
  bson_iterator_at B (it.ptr + skipSize.toNat) (it.rlen - skipSize)

/-- Source function `bson_view_len` (part_008 lines 108-119): 0 for the null view, else the
4-byte little-endian header. -/
def bson_view_len (v : Option (List Nat)) : Nat :=
  match v with
  | none => 0
  | some B => readU32LE B 0

/-- Source function `bson_view_from_data` (part_008 lines 179-218).  The buffer is `B` and
`data_len = B.length`.  Returns the view (`some B` on success, `none`
otherwise) paired with the `bson_view_invalid_reason` code:
0 OKAY, 1 SHORT_READ, 2 INVALID_HEADER, 3 INVALID_TERMINATOR. -/
def bson_view_from_data (B : List Nat) : Option (List Nat) × Nat :=
  if B.length < 5 then (none, 1)
  else
    let len := readU32LE B 0
    if len > 2147483648 ∨ len < 5 then (none, 2)
    else if len > B.length then (none, 1)
    else if B.getD (len - 1) 0 ≠ 0 then (none, 3)
    else (some B, 0)

/-- Source function `bson_begin` (part_008 lines 838-844): parse just after the 4-byte
header with `bson_view_len - 4` bytes remaining. -/
def bson_begin (B : List Nat) : bson_iterator :=
  bson_iterator_at B 4 ((readU32LE B 0 : Int) - 4)

/-- Iterate `bson_next` at most `n` times, stopping at a done/errored
iterator (the source's loops test `bson_iterator_done` before advancing). -/
def bson_iterN (B : List Nat) : Nat → bson_iterator → bson_iterator
  | 0, it => it
  | n + 1, it => if bson_iterator_done it then it else bson_iterN B n (bson_next B it)

-- {"k": true}: 09 00 00 00 08 6b 00 01 00
example : bson_begin [9, 0, 0, 0, 8, 107, 0, 1, 0] = ⟨4, 5, 1⟩ := by decide
example :
    bson_next [9, 0, 0, 0, 8, 107, 0, 1, 0] ⟨4, 5, 1⟩ = ⟨8, 1, 0⟩ := by decide
-- empty document
example : bson_begin [5, 0, 0, 0, 0] = ⟨4, 1, 0⟩ := by decide
example : bson_view_from_data [5, 0, 0, 0, 0] = (some [5, 0, 0, 0, 0], 0) := by decide
example : bson_view_from_data [20, 0, 0, 0, 0, 0, 0, 0, 0, 0] = (none, 1) := by decide
example : bson_view_from_data [6, 0, 0, 0, 0, 9] = (none, 3) := by decide

/-- The iterator of src/src/libbson/src/bson2/view.h (lines 259-274):
element offset, unsigned remaining byte count, key length, and a stop
reason (`bson_view_iterator_stop_reason`): 0 not-done, 1 DONE, 2 INVALID,
3 INVALID_TYPE, 4 SHORT_READ. -/
structure bson2_iterator where
  ptr : Nat
  bytesRemaining : Nat
  keylen : Nat
  stop : Nat
deriving DecidableEq, Repr

/-- A stopped `bson2_iterator` (all other fields zero-initialized). -/
def bson2_stopped (reason : Nat) : bson2_iterator :=
  ⟨0, 0, 0, reason⟩

/-- Source function `_bson_iterator_at` of bson2/view.h (lines 316-339). -/
def bson2_iterator_at (B : List Nat) (data : Nat) (bytesRemaining : Nat) : bson2_iterator :=
  if bytesRemaining < 1 then bson2_stopped 2  -- BSONV_ITER_STOP_INVALID
  else if bytesRemaining = 1 ∧ B.getD data 0 = 0 then bson2_stopped 1  -- DONE
  else
    let keylen := strnlenAt B (data + 1) (bytesRemaining - 1)
    if keylen > 32767 ∨ keylen = bytesRemaining - 1 then bson2_stopped 2
    else ⟨data, bytesRemaining, keylen, 0⟩

/-- Source function `_bson_safe_addptr` of bson2/view.h (lines 342-352): advance `from_` by
`dist` bytes but never past `end_`. -/
def bson_safe_addptr (from_ dist end_ : Nat) : Nat :=
  if end_ - from_ < dist then end_ else from_ + dist

/-- The `jumpsize_table` of `bson_next` in bson2/view.h (lines 369-390),
20 entries; type tags `>= 20` are rejected as invalid. -/
def bson2_jumpTable (t : Nat) : Int :=
  match t with
  | 0x0 => 0
  | 0x1 => 8
  | 0x2 => -1
  | 0x3 => -1
  | 0x4 => -1
  | 0x5 => -1
  | 0x6 => 0
  | 0x7 => 12
  | 0x8 => 1
  | 0x9 => 8
  | 0xa => 0
  | 0xb => -2
  | 0xc => -2
  | 0xd => -1
  | 0xe => -1
  | 0xf => -1
  | 0x10 => 4
  | 0x11 => 8
  | 0x12 => 8
  | 0x13 => 16
  | _ => -3  -- unused: a tag >= 20 is rejected before the table is read

/-- Source function `bson_next` of bson2/view.h (lines 362-479). -/
def bson2_next (B : List Nat) (it : bson2_iterator) : bson2_iterator :=
  let type := B.getD it.ptr 0
  if type ≥ 20 then bson2_stopped 3  -- BSONV_ITER_STOP_INVALID_TYPE
  else
    let valptr := it.ptr + 1 + it.keylen + 1
    let docEnd := it.ptr + it.bytesRemaining
    let jump := bson2_jumpTable type
    if jump ≥ 0 then
      bson2_iterator_at B (bson_safe_addptr valptr jump.toNat docEnd)
        (docEnd - bson_safe_addptr valptr jump.toNat docEnd)
    else if jump = -1 then
      if it.bytesRemaining < 4 then bson2_stopped 4  -- SHORT_READ
      else
        let len := readU32LE B valptr
        let n1 := bson_safe_addptr valptr len docEnd
        let n2 := if type ≠ 3 ∧ type ≠ 4 then bson_safe_addptr n1 4 docEnd else n1
        let n3 := if type = 5 then bson_safe_addptr n2 1 docEnd else n2
        bson2_iterator_at B n3 (docEnd - n3)
    else
      -- jump = -2: regex (0x0b) or dbpointer (0x0c)
      if type = 0xb then
        let maxlen := docEnd - valptr
        let reLen := strnlenAt B valptr maxlen
        let nextEl :=
          if reLen ≠ maxlen then
            let optLen := strnlenAt B (valptr + reLen + 1) (maxlen - (reLen + 1))
            if optLen ≠ maxlen - (reLen + 1) then valptr + reLen + 1 + optLen + 1
            else valptr
          else valptr
        if nextEl = valptr then bson2_stopped 2  -- invalid regex value
        else bson2_iterator_at B nextEl (docEnd - nextEl)
      else
        -- dbpointer
        if it.bytesRemaining < 4 then bson2_stopped 4
        else
          let len := readU32LE B valptr
          let n1 := bson_safe_addptr valptr len docEnd
          let n2 := bson_safe_addptr n1 12 docEnd
          bson2_iterator_at B n2 (docEnd - n2)

/-- Source function `bson_begin` of bson2/view.h (lines 481-486). -/
def bson2_begin (B : List Nat) : bson2_iterator :=
  bson2_iterator_at B 4 (readU32LE B 0 - 4)

/-- Walk a document with `bson2_next` until a stopped iterator is reached:
`true` iff the walk ends in the DONE state without ever producing an
errored iterator.  `fuel` bounds the number of steps (callers pass enough
fuel for the buffer at hand). -/
def bson2_walkOk (B : List Nat) : Nat → bson2_iterator → Bool
  | 0, _ => false
  | n + 1, it =>
    if it.stop = 1 then true
    else if it.stop ≠ 0 then false
    else bson2_walkOk B n (bson2_next B it)

-- {"k": "a"}: 0e 00 00 00 02 6b 00 02 00 00 00 61 00 00
example :
    bson2_walkOk [14, 0, 0, 0, 2, 107, 0, 2, 0, 0, 0, 97, 0, 0] 10
      (bson2_begin [14, 0, 0, 0, 2, 107, 0, 2, 0, 0, 0, 97, 0, 0]) = true := by decide

/-- Result of `_find_after_cstring` (bson-view.c lines 8-22): the offset just
past the key's NUL, `missing` when the scan hit `end` first (`*okay = false`),
or `oob` when a byte outside the buffer would be dereferenced. -/
inductive Scan where
  | found (next : Int) : Scan
  | missing : Scan
  | oob : Scan
deriving DecidableEq, Repr

/-- Source function `_find_after_cstring` (bson-view.c lines 8-22), with every byte read
bounds-checked.  The fuel argument only makes the recursion structural; the
callers pass `B.length + 2`, which can never be exhausted (each step either
stops or moves one byte forward, and scanning past the buffer stops with
`oob`). -/
def find_after_cstring (B : List Nat) : Nat → Int → Int → Scan
  | 0, _, _ => .oob
  | fuel + 1, cur, end_ =>
    if cur = end_ then .missing
    else
      match byteAt? B cur with
      | none => .oob
      | some 0 => .found (cur + 1)
      | some _ => find_after_cstring B fuel (cur + 1) end_

/-- The `jumpsize_table` of `_validate_document` (bson-view.c lines 27-49).
Faithful to the source, including its slip: the table has no entry for the
MongoDB timestamp tag, so entry 0x12 (int64) holds 16 and entry 0x13
(decimal128) holds 0, and tags 0x7f/0xff are out of range. -/
def validator_jump_table (t : Nat) : Int :=
  match t with
  | 0 => 0
  | 1 => 8
  | 2 => -1
  | 3 => -1
  | 4 => -1
  | 5 => -1
  | 6 => 0
  | 7 => 12
  | 8 => 1
  | 9 => 8
  | 10 => 0
  | 11 => -2
  | 12 => -2
  | 13 => -1
  | 14 => -1
  | 15 => -1
  | 16 => 4
  | 17 => 8
  | 18 => 16
  | 19 => 0
  | 20 => 0
  | _ => -3  -- unused: tags >= 21 are rejected before the table is read

/-- Outcome of the eager validator: `ret code` is the C return value
(0 success, else a `bson_view_iterator_stop_reason`), `oob` means the C
would access a byte outside the buffer, `fuelOut` is unreachable for
sufficient fuel. -/
inductive VOut where
  | ret (code : Nat) : VOut
  | oob : VOut
  | fuelOut : VOut
deriving DecidableEq, Repr

/-- Source function `_validate_document` (bson-view.c lines 24-174): walk the elements in
`[iter, end_)`; every byte access is bounds-checked against `B`.  Mirrors the
source exactly, in particular:
 * the length-prefix branch recurses into the value of every length-prefixed
   element whose type is NOT document/array (`type != BSON_TYPE_DOCUMENT &&
   type != BSON_TYPE_ARRAY`, lines 90-105), and for document/array trusts the
   declared length with no recursion;
 * for document/array the declared `uint32_t` length is assigned to the
   `int32_t` variable `jump` unchecked (line 89), so lengths `>= 2^31`
   become negative jumps. -/
def validate_document (B : List Nat) : Nat → Int → Int → VOut
  | 0, _, _ => .fuelOut
  | fuel + 1, iter, end_ =>
    if iter = end_ then .ret 4  -- fell off the loop: BSONV_ITER_STOP_SHORT_READ
    else
      match byteAt? B iter with
      | none => .oob
      | some type =>
        if type = 0 then
          if iter + 1 ≠ end_ then .ret 3 else .ret 0
        else if type ≥ 21 then .ret 3  -- BSONV_ITER_STOP_INVALID_TYPE
        else
          match find_after_cstring B (B.length + 2) iter end_ with
          | .oob => .oob
          | .missing => .ret 2  -- BSONV_ITER_STOP_INVALID
          | .found it2 =>
            let finish : Int → VOut := fun jump =>
              if end_ - it2 < jump then .ret 4
              else validate_document B fuel (it2 + jump) end_
            let jump0 := validator_jump_table type
            if jump0 ≥ 0 then finish jump0
            else if jump0 = -1 then
              if end_ - it2 < 4 then .ret 4
              else
                match readU32at? B it2 with
                | none => .oob
                | some len =>
                  if type ≠ 3 ∧ type ≠ 4 then
                    if (len : Int) > end_ - it2 then .ret 4
                    else
                      match validate_document B fuel it2 (it2 + len) with
                      | .ret 0 => finish (int32ofUInt32 len + 4)
                      | r => r
                  else finish (int32ofUInt32 len)
            else
              -- jump0 = -2: regex (0x0b) or dbpointer (0x0c)
              if type = 11 then
                match find_after_cstring B (B.length + 2) it2 end_ with
                | .oob => .oob
                | .missing => .ret 2
                | .found s1 =>
                  match find_after_cstring B (B.length + 2) s1 end_ with
                  | .oob => .oob
                  | .missing => .ret 2
                  | .found s2 => finish (s2 - it2)
              else
                if end_ - it2 < 4 then .ret 4
                else
                  match readU32at? B it2 with
                  | none => .oob
                  | some len =>
                    if 4294967295 - len < 12 then .ret 4
                    else finish (int32ofUInt32 (len + 12))

-- validator sanity checks, starting at the first element (offset 4):
-- a document holding a single bool element validates
example :
    validate_document [9, 0, 0, 0, 8, 107, 0, 1, 0] 40 4 9 = .ret 0 := by decide
-- a document holding a single utf8 element is rejected (the validator
-- recurses into the string value as if it were a sub-document)
example :
    validate_document [14, 0, 0, 0, 2, 107, 0, 2, 0, 0, 0, 97, 0, 0] 40 4 14 =
      .ret 4 := by decide
-- an embedded document element with declared length 2^31 drives the cursor
-- negative and the validator reads out of bounds
example :
    validate_document [12, 0, 0, 0, 3, 107, 0, 0, 0, 0, 128, 0] 40 4 12 =
      .oob := by decide
-- an embedded document element whose body is garbage (missing terminator) is
-- accepted: the validator never recurses into document/array elements
example :
    validate_document [13, 0, 0, 0, 3, 107, 0, 5, 0, 0, 0, 255, 0] 40 4 13 =
      .ret 0 := by decide

/-- Modelled from the spec: `_bson_i32_iadd` and the `_bson_safe_int32`
helpers are declared in src/unnamed/part_003 but their defining header
(`view.h` of part_004) is not present under src/.  Per spec section 4.1 the
checked helpers return a value plus an overflow flag; `_bson_i32_iadd (p, x)`
adds `x` into `*p` in place and reports `false` on 32-bit overflow (the
"i" form, used at part_004 line 437 to add the 1024-byte growth headroom
into `new_doc_size` before calling `bson_reserve`).  Here the int32 range
check is written out inline at each use site. -/
def int32InRange (v : Int) : Prop := -2147483648 ≤ v ∧ v ≤ INT32_MAX

instance (v : Int) : Decidable (int32InRange v) := by
  unfold int32InRange; infer_instance

/-- Move the tail of the root document and stamp the inserted gap, then
rewrite the root header (the `memmove`/`memset`/header-write tail of the
root branch of `_bson_splice_region`, part_004 lines 449-466).  `hdr` is the
value of `new_doc_size.value` at the header write (note: after a growth the
in-place add of 1024 has already changed it). -/
def bson_root_move (buf : List Nat) (off pos nDel nIns : Nat) (hdr : Int) : List Nat :=
  let docSize := readU32LE buf off  -- bson_size: re-read the (old) header
  let tail := (buf.take docSize).drop (pos + nDel)
  let moved := overwriteFrom buf pos (List.replicate nIns 88 ++ tail)  -- 88 = 'X'
  writeU32LE moved off ((hdr % 4294967296).toNat)

/-- Source function `_bson_splice_region` (part_004 lines 400-467).  The chain of child
mutators is modelled by `path`: the data offsets of the documents from the
one being edited (head) to the root (last entry; its offset is 0 and the
buffer `buf` is the root's allocation, whose length is the root capacity).
In this offset model the pointer re-adjustments after a reallocation
(part_004 lines 423, 430-431, 446-447) are identities.  `alloc` is the
allocator: `alloc request = some granted` with `granted >= request`, or
`none` for allocation failure (`bson_mut_allocator_fn`).  Returns the
updated buffer and `some position` on success; on failure the original
buffer and `none` (the C returns `NULL` before mutating anything). -/
def bson_splice_region (alloc : Nat → Option Nat) (buf : List Nat) :
    List Nat → Nat → Nat → Nat → List Nat × Option Nat
  | [], _, _, _ => (buf, none)  -- unreachable: every mutator chain ends at a root
  | [off], pos, nDel, nIns =>
    -- ROOT MODE: grow if needed, then move the tail and rewrite the header
    if ¬int32InRange ((readU32LE buf off : Int) + nIns - nDel) then (buf, none)
    else if ((readU32LE buf off : Int) + nIns - nDel) > (buf.length : Int) then
      -- headroom to amortize repeated growth; the in-place checked add makes
      -- new_doc_size itself 1024 larger (part_004 line 437)
      if ¬int32InRange ((readU32LE buf off : Int) + nIns - nDel + 1024) then (buf, none)
      else
        match alloc ((readU32LE buf off : Int) + nIns - nDel + 1024).toNat with
        | none => (buf, none)
        | some got =>
          (bson_root_move (buf ++ List.replicate (got - buf.length) 0) off pos nDel nIns
            ((readU32LE buf off : Int) + nIns - nDel + 1024), some pos)
    else
      (bson_root_move buf off pos nDel nIns ((readU32LE buf off : Int) + nIns - nDel),
        some pos)
  | off :: o2 :: rest, pos, nDel, nIns =>
    -- CHILD MODE: the parent performs the byte work, then this document's
    -- header is rewritten to its own new size
    if ¬int32InRange ((readU32LE buf off : Int) + nIns - nDel) then (buf, none)
    else
      match bson_splice_region alloc buf (o2 :: rest) pos nDel nIns with
      | (_, none) => (buf, none)
      | (buf1, some p) =>
        (writeU32LE buf1 off ((((readU32LE buf off : Int) + nIns - nDel) % 4294967296).toNat),
          some p)

/-- Source function `_bson_prep_element_region` (part_004 lines 489-528): splice in
`1 + keylen + 1 + datasize` bytes at `pos` and write the type tag, the key
and its NUL.  The key is a NUL-free byte string, so `_bson_safe_strlen32`
is its length (helper modelled from the spec, section 4.1).  Returns the
updated buffer and `some` offset of the element's value region; on failure
the unchanged buffer and `none` (the C returns `NULL` and parks the caller's
iterator at the end position). -/
def bson_prep_element_region (alloc : Nat → Option Nat) (buf : List Nat)
    (path : List Nat) (pos : Nat) (type : Nat) (key : List Nat) (datasize : Int) :
    List Nat × Option Nat :=
  let keylen : Int := key.length
  let elemSize : Int := datasize + (2 + keylen)
  if ¬int32InRange (2 + keylen) ∨ ¬int32InRange elemSize then (buf, none)
  else
    match bson_splice_region alloc buf path pos 0 elemSize.toNat with
    | (_, none) => (buf, none)
    | (buf1, some p) =>
      (overwriteFrom buf1 p ([type] ++ key ++ [0]), some (p + 1 + key.length + 1))

/-- Bounds-checked read of `n` bytes of `src` starting at `off` (the source
side of a `memcpy`): `none` when the C would read past the end of `src`. -/
def readRange (src : List Nat) (off n : Nat) : Option (List Nat) :=
  if off + n ≤ src.length then some ((src.drop off).take n) else none

/-- Result of an insert operation: `ok` with the new buffer, `fail` when the
operation signals failure by returning the end iterator (document untouched),
or `oobRead` when the C reads outside a caller-supplied buffer. -/
inductive InsertResult where
  | ok (buf : List Nat) : InsertResult
  | fail : InsertResult
  | oobRead : InsertResult
deriving DecidableEq, Repr

/-- Source function `bson_insert_binary` (part_004 lines 683-703), faithful to the source:
`size = bin.data_len + 5`; on success the source writes `size` (not
`data_len`) as the element's length prefix and copies `size` bytes from
`bin.data` (a `data_len`-byte payload). -/
def bson_insert_binary (alloc : Nat → Option Nat) (buf : List Nat) (path : List Nat)
    (pos : Nat) (key : List Nat) (subtype : Nat) (payload : List Nat) : InsertResult :=
  let size : Int := (payload.length : Int) + 5
  if ¬int32InRange (payload.length : Int) ∨ ¬int32InRange size then .fail
  else
    match bson_prep_element_region alloc buf path pos 5 key size with
    | (_, none) => .fail
    | (buf1, some out) =>
      let buf2 := writeU32LE buf1 out size.toNat
      let buf3 := overwriteFrom buf2 (out + 4) [subtype % 256]
      match readRange payload 0 size.toNat with
      | none => .oobRead
      | some bytes => .ok (overwriteFrom buf3 (out + 5) bytes)

-- growth writes size + 1024 into the root header: true span is 9, header 1033
example :
    (bson_splice_region (fun n => some n) [5, 0, 0, 0, 0] [0] 4 0 4).2 = some 4 := by decide
example :
    readU32LE (bson_splice_region (fun n => some n) [5, 0, 0, 0, 0] [0] 4 0 4).1 0 =
      1033 := by decide
-- no growth: header updated to the exact new span
example :
    readU32LE (bson_splice_region (fun n => some n)
      [5, 0, 0, 0, 0, 0, 0, 0, 0, 0] [0] 4 0 4).1 0 = 9 := by decide
-- inserting a 1-byte binary payload reads 6 bytes from the payload
example :
    bson_insert_binary (fun n => some n) [5, 0, 0, 0, 0] [0] 4 [107] 0 [170] =
      .oobRead := by decide

/-- A lazily-validated iterator in the valid-at-element state, exactly as
established by `_bson_iterator_at`: more than the trailing NUL remains, the
remaining range lies inside the buffer and ends with a NUL byte, the stored
key length is the key's strlen, and the element size oracle accepted the
value within the remaining bound. -/
def ValidIter (B : List Nat) (it : bson_iterator) : Prop :=
  1 < it.rlen ∧
  it.rlen ≤ INT32_MAX ∧
  it.ptr + it.rlen.toNat ≤ B.length ∧
  B.getD (it.ptr + it.rlen.toNat - 1) 0 = 0 ∧
  it.keylen = strlenAt B (it.ptr + 1) ∧
  (it.keylen : Int) + 3 ≤ it.rlen ∧
  0 ≤ bson_valsize B (B.getD it.ptr 0) (it.ptr + 1 + it.keylen + 1)
      (it.rlen - 1 - (it.keylen : Int) - 1)

instance (B : List Nat) (it : bson_iterator) : Decidable (ValidIter B it) := by
  unfold ValidIter; infer_instance

theorem strnlenAt_le (B : List Nat) : ∀ n off, strnlenAt B off n ≤ n := by
  intro n
  induction n with
  | zero => intro off; simp [strnlenAt]
  | succ n ih =>
    intro off
    simp only [strnlenAt]
    split
    · omega
    · have := ih (off + 1); omega

theorem strnlenAt_le_of_nul (B : List Nat) :
    ∀ n off k, B.getD (off + k) 0 = 0 → strnlenAt B off n ≤ k := by
  intro n
  induction n with
  | zero => intro off k _; simp [strnlenAt]
  | succ n ih =>
    intro off k h
    simp only [strnlenAt]
    split
    · omega
    · rename_i hoff
      cases k with
      | zero => simp only [Nat.add_zero] at h; exact absurd h hoff
      | succ k =>
        have h' : B.getD (off + 1 + k) 0 = 0 := by
          have e : off + 1 + k = off + (k + 1) := by omega
          rw [e]; exact h
        have := ih (off + 1) k h'
        omega

theorem strnlenAt_stable (B : List Nat) :
    ∀ n m off, strnlenAt B off n < n → n ≤ m →
      strnlenAt B off m = strnlenAt B off n := by
  intro n
  induction n with
  | zero => intro m off h _; omega
  | succ n ih =>
    intro m off h hnm
    cases m with
    | zero => omega
    | succ m =>
      by_cases hoff : B.getD off 0 = 0
      · simp only [strnlenAt, if_pos hoff]
      · simp only [strnlenAt, if_neg hoff] at h ⊢
        have h' : strnlenAt B (off + 1) n < n := by omega
        rw [ih m (off + 1) h' (by omega)]


theorem bson_value_re_len_lt (B : List Nat) (p : Nat) (m : Int)
    (h : 0 ≤ bson_value_re_len B p m) : bson_value_re_len B p m < m := by
  simp only [bson_value_re_len] at h ⊢
  generalize hA : strnlenAt B p m.toNat = a at h ⊢
  generalize hB : strnlenAt B (p + ((a : Int) + 1).toNat) (m - ((a : Int) + 1)).toNat = b
    at h ⊢
  split_ifs at h ⊢ with h1
  · omega
  · omega

theorem bson_value_re_len_stable (B : List Nat) (p : Nat) (m M : Int) (h0 : 0 < m)
    (hmM : m ≤ M) (h : 0 ≤ bson_value_re_len B p m) :
    bson_value_re_len B p M = bson_value_re_len B p m := by
  simp only [bson_value_re_len] at h ⊢
  generalize hA : strnlenAt B p m.toNat = a at h ⊢
  generalize hB : strnlenAt B (p + ((a : Int) + 1).toNat) (m - ((a : Int) + 1)).toNat = b
    at h ⊢
  split_ifs at h with h1
  · omega
  · -- both NUL scans stopped strictly inside their bounds, so the scans at the
    -- larger bound find the same terminators
    have haltm : (a : Int) + 3 ≤ m := by omega
    have hstable1 : strnlenAt B p M.toNat = a := by
      rw [← hA]; exact strnlenAt_stable B m.toNat M.toNat p (by omega) (by omega)
    have hblt : (b : Int) + 2 ≤ m - ((a : Int) + 1) := by omega
    have hstable2 :
        strnlenAt B (p + ((a : Int) + 1).toNat) (M - ((a : Int) + 1)).toNat = b := by
      rw [← hB]
      exact strnlenAt_stable B (m - ((a : Int) + 1)).toNat (M - ((a : Int) + 1)).toNat
        (p + ((a : Int) + 1).toNat) (by omega) (by omega)
    rw [hstable1, hstable2]
    rw [if_neg (by omega), if_neg h1]

theorem bson_valsize_lt (B : List Nat) (t p : Nat) (m : Int) (h0 : 0 < m)
    (h : 0 ≤ bson_valsize B t p m) : bson_valsize B t p m < m := by
  simp only [bson_valsize] at h ⊢
  by_cases hc1 : varsizePick t = true ∧ ¬(4 < m)
  · rw [if_pos hc1] at h; omega
  · rw [if_neg hc1] at h ⊢
    by_cases hc2 :
        constSizes t + (if varsizePick t = true then (readU32LE B p : Int) else 0) < m
    · rw [if_pos hc2] at h ⊢; exact hc2
    · rw [if_neg hc2] at h ⊢
      by_cases hc3 : t = 0xb
      · rw [if_pos hc3] at h ⊢
        exact bson_value_re_len_lt B p m h
      · rw [if_neg hc3] at h ⊢
        split_ifs at h ⊢ <;> omega

theorem bson_valsize_stable (B : List Nat) (t p : Nat) (m : Int) (h0 : 0 < m)
    (hm : m ≤ INT32_MAX) (h : 0 ≤ bson_valsize B t p m) :
    bson_valsize B t p INT32_MAX = bson_valsize B t p m := by
  have hM4 : (4 : Int) < INT32_MAX := by decide
  simp only [bson_valsize] at h ⊢
  by_cases hc1 : varsizePick t = true ∧ ¬(4 < m)
  · rw [if_pos hc1] at h; omega
  · rw [if_neg hc1] at h
    rw [if_neg (show ¬(varsizePick t = true ∧ ¬(4 < INT32_MAX)) by
      rintro ⟨_, hn⟩; exact hn hM4)]
    rw [if_neg hc1]
    by_cases hc2 :
        constSizes t + (if varsizePick t = true then (readU32LE B p : Int) else 0) < m
    · rw [if_pos hc2] at h
      rw [if_pos (lt_of_lt_of_le hc2 hm), if_pos hc2]
    · rw [if_neg hc2] at h
      rw [if_neg hc2]
      by_cases hc3 : t = 0xb
      · rw [if_pos hc3] at h
        have hF11 : constSizes t +
            (if varsizePick t = true then (readU32LE B p : Int) else 0) = INT32_MAX := by
          rw [hc3]; simp [constSizes, varsizePick]
        rw [hF11, if_neg (lt_irrefl INT32_MAX), if_pos hc3, if_pos hc3]
        exact bson_value_re_len_stable B p m INT32_MAX h0 hm h
      · rw [if_neg hc3] at h
        split_ifs at h <;> omega

theorem skipCheckType_fixed (t : Nat) (ht : skipCheckType t = true) :
    varsizePick t = false ∧ 0 ≤ constSizes t ∧ constSizes t ≤ 16 := by
  have hd : t = 0xa ∨ t = 0x6 ∨ t = 0x11 ∨ t = 0x9 ∨ t = 0x1 ∨ t = 0x8 ∨
      t = 0x13 ∨ t = 0x10 ∨ t = 0x12 := by
    simp only [skipCheckType, Bool.or_eq_true, decide_eq_true_eq] at ht
    tauto
  rcases hd with h | h | h | h | h | h | h | h | h <;>
    exact h ▸ ⟨rfl, by decide, by decide⟩

theorem bson_valsize_fixed (B : List Nat) (t p : Nat) (m : Int)
    (hvp : varsizePick t = false) (hc : constSizes t < m) :
    bson_valsize B t p m = constSizes t := by
  simp [bson_valsize, hvp, hc]

theorem bson_valsize_skip (B : List Nat) (p : Nat) (t : Nat) (m : Int)
    (ht : skipCheckType t = true) (hm : 16 < m) :
    0 ≤ bson_valsize B t p m ∧ bson_valsize B t p m < m := by
  obtain ⟨hvp, hc0, hc16⟩ := skipCheckType_fixed t ht
  rw [bson_valsize_fixed B t p m hvp (by omega)]
  omega

theorem bson_iterator_at_rlen_le (B : List Nat) (d : Nat) (m : Int) (h : 1 ≤ m) :
    (bson_iterator_at B d m).rlen ≤ m := by
  simp only [bson_iterator_at]
  split_ifs <;> simp [bson_iterator_error] <;> omega

theorem bson_iterator_at_spec (B : List Nat) (d : Nat) (m : Int)
    (h0 : 0 < m) (hM : m ≤ INT32_MAX)
    (hlen : d + m.toNat ≤ B.length)
    (hnul : B.getD (d + m.toNat - 1) 0 = 0) :
    (bson_iterator_at B d m).rlen ≤ 1 ∨ ValidIter B (bson_iterator_at B d m) := by
  simp only [bson_iterator_at]
  by_cases h1 : m = 1
  · left; rw [if_pos h1]
  · rw [if_neg h1]
    have hm2 : 2 ≤ m := by omega
    by_cases h2 : (m - 1) - (strlenAt B (d + 1) : Int) - 1 < 1
    · left; rw [if_pos h2]; simp [bson_iterator_error]
    · rw [if_neg h2]
      by_cases h3 : (m - 1) - (strlenAt B (d + 1) : Int) - 1 > 16 ∧
          skipCheckType (B.getD d 0) = true
      · rw [if_pos h3]
        right
        refine ⟨by simpa using hm2, hM, by simpa using hlen, by simpa using hnul, rfl,
          by simp; omega, ?_⟩
        simp only
        have := bson_valsize_skip B (d + 1 + strlenAt B (d + 1) + 1) (B.getD d 0)
          ((m - 1) - (strlenAt B (d + 1) : Int) - 1) h3.2 h3.1
        have he : m - 1 - (strlenAt B (d + 1) : Int) - 1 =
            m - 1 - (strlenAt B (d + 1) : Int) - 1 := rfl
        omega
      · rw [if_neg h3]
        by_cases h4 : bson_valsize B (B.getD d 0) (d + 1 + strlenAt B (d + 1) + 1)
            ((m - 1) - (strlenAt B (d + 1) : Int) - 1) < 0
        · left; rw [if_pos h4]; dsimp only [bson_iterator_error]; omega
        · rw [if_neg h4]
          right
          exact ⟨by simpa using hm2, hM, by simpa using hlen, by simpa using hnul, rfl,
            by simp; omega, by simpa using not_lt.mp h4⟩

theorem bson_next_rlen_lt (B : List Nat) (it : bson_iterator) (h : ValidIter B it) :
    (bson_next B it).rlen < it.rlen := by
  obtain ⟨h1, h2, h3, h4, h5, h6, h7⟩ := h
  simp only [bson_next]
  rw [bson_valsize_stable B (B.getD it.ptr 0) (it.ptr + 1 + it.keylen + 1)
    (it.rlen - 1 - (it.keylen : Int) - 1) (by omega) (by omega) h7]
  have hvlt := bson_valsize_lt B (B.getD it.ptr 0) (it.ptr + 1 + it.keylen + 1)
    (it.rlen - 1 - (it.keylen : Int) - 1) (by omega) h7
  have hle := bson_iterator_at_rlen_le B
    (it.ptr + (1 + (it.keylen : Int) + 1 +
      bson_valsize B (B.getD it.ptr 0) (it.ptr + 1 + it.keylen + 1)
        (it.rlen - 1 - (it.keylen : Int) - 1)).toNat)
    (it.rlen - (1 + (it.keylen : Int) + 1 +
      bson_valsize B (B.getD it.ptr 0) (it.ptr + 1 + it.keylen + 1)
        (it.rlen - 1 - (it.keylen : Int) - 1)))
    (by omega)
  omega

theorem bson_next_spec (B : List Nat) (it : bson_iterator) (h : ValidIter B it) :
    (bson_next B it).rlen ≤ 1 ∨ ValidIter B (bson_next B it) := by
  obtain ⟨h1, h2, h3, h4, h5, h6, h7⟩ := h
  simp only [bson_next]
  rw [bson_valsize_stable B (B.getD it.ptr 0) (it.ptr + 1 + it.keylen + 1)
    (it.rlen - 1 - (it.keylen : Int) - 1) (by omega) (by omega) h7]
  have hvlt := bson_valsize_lt B (B.getD it.ptr 0) (it.ptr + 1 + it.keylen + 1)
    (it.rlen - 1 - (it.keylen : Int) - 1) (by omega) h7
  set v := bson_valsize B (B.getD it.ptr 0) (it.ptr + 1 + it.keylen + 1)
    (it.rlen - 1 - (it.keylen : Int) - 1) with hv
  have harg : it.ptr + (1 + (it.keylen : Int) + 1 + v).toNat +
      (it.rlen - (1 + (it.keylen : Int) + 1 + v)).toNat = it.ptr + it.rlen.toNat := by
    omega
  apply bson_iterator_at_spec B _ _ (by omega) (by omega)
  · rw [harg]; exact h3
  · rw [harg]; exact h4

theorem bson_iterN_done (B : List Nat) :
    ∀ (n : Nat) (it : bson_iterator), (ValidIter B it ∨ it.rlen ≤ 1) → it.rlen ≤ (n : Int) →
      bson_iterator_done (bson_iterN B n it) = true := by
  intro n
  induction n with
  | zero =>
    intro it h hle
    simp only [bson_iterN, bson_iterator_done, decide_eq_true_eq]
    rcases h with hv | hd
    · exact absurd hle (by obtain ⟨hgt, _⟩ := hv; omega)
    · exact hd
  | succ n ih =>
    intro it h hle
    by_cases hd : bson_iterator_done it = true
    · simp only [bson_iterN, if_pos hd]
      exact hd
    · have hgt : 1 < it.rlen := by
        simp only [bson_iterator_done, decide_eq_true_eq] at hd
        omega
      have hv : ValidIter B it := by
        rcases h with hv | hl
        · exact hv
        · omega
      have hlt := bson_next_rlen_lt B it hv
      have hnx := bson_next_spec B it hv
      simp only [bson_iterN, if_neg hd]
      exact ih (bson_next B it) (hnx.symm.imp id id |>.symm.elim (fun a => Or.inr a)
        (fun a => Or.inl a)) (by omega)

/-- C9: CONFIRMED.  `bson_view_from_data` reports SHORT_READ (1) when the
buffer is shorter than 5 bytes; otherwise, with `L` the 4-byte little-endian
header, INVALID_HEADER (2) when `L < 5` or `L > 2^31`; otherwise SHORT_READ
when `L` exceeds the buffer length (a buffer longer than `L` is fine);
otherwise INVALID_TERMINATOR (3) when byte `L - 1` is not zero; and otherwise
a non-null view whose `bson_view_len` re-reads the header and equals `L`.
The checks happen in exactly that order (the order the spec lists them in). -/
theorem bson_view_from_data_spec (B : List Nat) :
    (B.length < 5 → bson_view_from_data B = (none, 1)) ∧
    (5 ≤ B.length →
      ((readU32LE B 0 < 5 ∨ 2147483648 < readU32LE B 0) →
        bson_view_from_data B = (none, 2)) ∧
      (5 ≤ readU32LE B 0 → readU32LE B 0 ≤ 2147483648 →
        ((B.length < readU32LE B 0 → bson_view_from_data B = (none, 1)) ∧
         (readU32LE B 0 ≤ B.length →
           ((B.getD (readU32LE B 0 - 1) 0 ≠ 0 → bson_view_from_data B = (none, 3)) ∧
            (B.getD (readU32LE B 0 - 1) 0 = 0 →
              bson_view_from_data B = (some B, 0) ∧
              bson_view_len (bson_view_from_data B).1 = readU32LE B 0)))))) := by
  constructor
  · intro h
    simp only [bson_view_from_data]
    rw [if_pos h]
  · intro h5
    refine ⟨?_, ?_⟩
    · intro hbad
      simp only [bson_view_from_data]
      rw [if_neg (by omega), if_pos (by omega)]
    · intro hlo hhi
      refine ⟨?_, ?_⟩
      · intro hshort
        simp only [bson_view_from_data]
        rw [if_neg (by omega), if_neg (by omega), if_pos (by omega)]
      · intro hfit
        refine ⟨?_, ?_⟩
        · intro hterm
          simp only [bson_view_from_data]
          rw [if_neg (by omega), if_neg (by omega), if_neg (by omega), if_pos hterm]
        · intro hterm0
          have he : bson_view_from_data B = (some B, 0) := by
            simp only [bson_view_from_data]
            rw [if_neg (by omega), if_neg (by omega), if_neg (by omega),
              if_neg (fun hne => hne hterm0)]
          exact ⟨he, by rw [he]; rfl⟩

theorem bson_splice_region_fail_unchanged (alloc : Nat → Option Nat) (buf : List Nat) :
    ∀ (path : List Nat) (pos nDel nIns : Nat),
      (bson_splice_region alloc buf path pos nDel nIns).2 = none →
      (bson_splice_region alloc buf path pos nDel nIns).1 = buf := by
  intro path
  induction path with
  | nil => intro pos nDel nIns _; rfl
  | cons off rest ih =>
    intro pos nDel nIns h
    cases rest with
    | nil =>
      simp only [bson_splice_region] at h ⊢
      split_ifs at h ⊢ <;>
        first
          | rfl
          | simp at h
          | (cases halloc :
                alloc ((readU32LE buf off : Int) + (nIns : Int) - (nDel : Int) + 1024).toNat with
              | none => simp only [halloc]
              | some got => rw [halloc] at h; simp at h)
    | cons o2 r2 =>
      rw [bson_splice_region] at h ⊢
      split_ifs at h ⊢ <;>
        first
          | rfl
          | (cases hs : bson_splice_region alloc buf (o2 :: r2) pos nDel nIns with
              | mk b1 r =>
                cases r with
                | none => simp only [hs]
                | some p => rw [hs] at h; simp at h)

theorem bson_splice_region_root_fail_iff (alloc : Nat → Option Nat) (buf : List Nat)
    (off pos nDel nIns : Nat) :
    (bson_splice_region alloc buf [off] pos nDel nIns).2 = none ↔
      (¬int32InRange ((readU32LE buf off : Int) + nIns - nDel) ∨
        (((readU32LE buf off : Int) + nIns - nDel) > (buf.length : Int) ∧
          (¬int32InRange ((readU32LE buf off : Int) + nIns - nDel + 1024) ∨
            alloc ((readU32LE buf off : Int) + nIns - nDel + 1024).toNat = none))) := by
  simp only [bson_splice_region]
  by_cases h1 : int32InRange ((readU32LE buf off : Int) + nIns - nDel)
  · rw [if_neg (not_not_intro h1)]
    by_cases h2 : ((readU32LE buf off : Int) + nIns - nDel) > (buf.length : Int)
    · rw [if_pos h2]
      by_cases h3 : int32InRange ((readU32LE buf off : Int) + nIns - nDel + 1024)
      · rw [if_neg (not_not_intro h3)]
        cases halloc :
            alloc ((readU32LE buf off : Int) + (nIns : Int) - (nDel : Int) + 1024).toNat with
        | none => simp [h1, h2, h3]
        | some got => simp [h1, h2, h3]
      · rw [if_pos h3]
        simp [h1, h2, h3]
    · rw [if_neg h2]
      simp [h1, h2]
  · rw [if_pos h1]
    simp [h1]

theorem bson_prep_element_region_fail (alloc : Nat → Option Nat) (buf : List Nat)
    (path : List Nat) (pos : Nat) (type : Nat) (key : List Nat) (datasize : Int) :
    ((bson_prep_element_region alloc buf path pos type key datasize).2 = none →
      (bson_prep_element_region alloc buf path pos type key datasize).1 = buf) ∧
    ((bson_prep_element_region alloc buf path pos type key datasize).2 = none ↔
      (¬int32InRange (2 + (key.length : Int)) ∨
        ¬int32InRange (datasize + (2 + (key.length : Int))) ∨
        (bson_splice_region alloc buf path pos 0
          (datasize + (2 + (key.length : Int))).toNat).2 = none)) := by
  simp only [bson_prep_element_region]
  by_cases h1 : ¬int32InRange (2 + (key.length : Int)) ∨
      ¬int32InRange (datasize + (2 + (key.length : Int)))
  · rw [if_pos h1]
    exact ⟨fun _ => rfl, ⟨fun _ => by tauto, fun _ => rfl⟩⟩
  · rw [if_neg h1]
    push_neg at h1
    cases hs : bson_splice_region alloc buf path pos 0
        (datasize + (2 + (key.length : Int))).toNat with
    | mk b1 r =>
      cases r with
      | none =>
        refine ⟨fun _ => by simp, ?_⟩
        simp
      | some p =>
        refine ⟨fun hfalse => by simp at hfalse, ?_⟩
        simp [h1.1, h1.2]

theorem bson_valsize_varsize_eval (B : List Nat) (p : Nat) (t : Nat) (m : Int)
    (hvp : varsizePick t = true) (ht11 : t ≠ 0xb) (hcM : constSizes t ≠ INT32_MAX) :
    (m ≤ 4 → bson_valsize B t p m = -4) ∧
    (4 < m →
      (constSizes t + (readU32LE B p : Int) < m →
        bson_valsize B t p m = constSizes t + readU32LE B p) ∧
      (m ≤ constSizes t + (readU32LE B p : Int) → bson_valsize B t p m = -4)) := by
  have hfull : constSizes t + (if varsizePick t = true then (readU32LE B p : Int) else 0) =
      constSizes t + readU32LE B p := by rw [if_pos hvp]
  refine ⟨?_, ?_⟩
  · intro hm
    simp only [bson_valsize]
    rw [if_pos ⟨hvp, by omega⟩]
  · intro hm
    refine ⟨?_, ?_⟩
    · intro hlt
      simp only [bson_valsize]
      rw [if_neg (by rintro ⟨_, hn⟩; exact hn hm), hfull, if_pos hlt]
    · intro hge
      simp only [bson_valsize]
      rw [if_neg (by rintro ⟨_, hn⟩; exact hn hm), hfull, if_neg (by omega),
        if_neg ht11, if_neg hcM]

/-- C1: FALSIFIED BY THE CODE (code bug).  The claim says every access of
eager validation and lazy iteration stays inside `[0, B.len)`.  For the
12-byte buffer below — accepted by `bson_view_from_data`, so reachable from
the untrusted entry point — the embedded-document element declares the
sub-document length `0x80000000`.  `_validate_document` assigns that
`uint32_t` to the `int32_t` variable `jump` (bson-view.c line 89), making it
`-2^31`; the guard `(end - iter) < jump` passes because `jump` is negative,
the cursor moves before the buffer, and the next type-tag read is out of
bounds (`VOut.oob`). -/
theorem validate_document_reads_out_of_bounds :
    bson_view_from_data [12, 0, 0, 0, 3, 107, 0, 0, 0, 0, 128, 0] =
      (some [12, 0, 0, 0, 3, 107, 0, 0, 0, 0, 128, 0], 0) ∧
    validate_document [12, 0, 0, 0, 3, 107, 0, 0, 0, 0, 128, 0] 40 4 12 = .oob := by
  decide

/-- C2: FALSIFIED BY THE CODE (code bug).  The claim says the eager validator
succeeds iff the lazy `begin`/`next` walk reaches done without error.  On the
well-formed document `{"k": "a"}` (no embedded sub-documents), the lazy walk
of bson2/view.h reaches DONE, but `_validate_document` returns
`BSONV_ITER_STOP_SHORT_READ` (4): its inverted condition
`type != BSON_TYPE_DOCUMENT && type != BSON_TYPE_ARRAY` makes it recurse into
the utf8 string's bytes as if they were a BSON document. -/
theorem validate_vs_lazy_walk_disagree :
    bson_view_from_data [14, 0, 0, 0, 2, 107, 0, 2, 0, 0, 0, 97, 0, 0] =
      (some [14, 0, 0, 0, 2, 107, 0, 2, 0, 0, 0, 97, 0, 0], 0) ∧
    validate_document [14, 0, 0, 0, 2, 107, 0, 2, 0, 0, 0, 97, 0, 0] 40 4 14 = .ret 4 ∧
    bson2_walkOk [14, 0, 0, 0, 2, 107, 0, 2, 0, 0, 0, 97, 0, 0] 10
      (bson2_begin [14, 0, 0, 0, 2, 107, 0, 2, 0, 0, 0, 97, 0, 0]) = true := by
  decide

/-- C3: FALSIFIED BY THE CODE (code bug).  The claim says that after every
successful splice the length header of the spliced document (and of each
parent) equals its true byte span.  Splicing 4 bytes into the 5-byte empty
document at capacity 5 grows the buffer; `_bson_i32_iadd` adds the 1024-byte
growth headroom *into* `new_doc_size` (part_004 line 437) and the header
write at line 465 then stores 1033 although the document's true span is 9.
The third conjunct shows the same splice with sufficient capacity (no
growth), where the header is the correct 9. -/
theorem splice_growth_header_off_by_1024 :
    (bson_splice_region (fun n => some n) [5, 0, 0, 0, 0] [0] 4 0 4).2 = some 4 ∧
    readU32LE (bson_splice_region (fun n => some n) [5, 0, 0, 0, 0] [0] 4 0 4).1 0 =
      1033 ∧
    readU32LE (bson_splice_region (fun n => some n)
      [5, 0, 0, 0, 0, 0, 0, 0, 0, 0] [0] 4 0 4).1 0 = 9 := by
  decide

/-- C4: FALSIFIED BY THE CODE (code bug).  The claim says the size oracle
computes a DBPointer value size of `4 + p + 12`.  The `const_sizes` entry for
tag 0x0c is 12, so `_bson_valsize` returns `p + 12` — the 4-byte length field
itself is never counted.  For a correctly encoded DBPointer value with
`p = 2` the oracle returns 14, not 18; consequently `bson_next` on a
well-formed document containing that element jumps 4 bytes short (into the
object id) and produces a SHORT_READ errored iterator instead of the end
iterator. -/
theorem valsize_dbpointer_missing_prefix_bytes :
    bson_valsize [2, 0, 0, 0, 99, 0, 7, 7, 7, 7, 7, 7, 7, 7, 7, 7, 7, 7, 0]
      0xc 0 19 = 14 ∧
    (4 : Int) + readU32LE [2, 0, 0, 0, 99, 0, 7, 7, 7, 7, 7, 7, 7, 7, 7, 7, 7, 7, 0] 0 +
      12 = 18 ∧
    bson_next [26, 0, 0, 0, 12, 107, 0, 2, 0, 0, 0, 99, 0,
        7, 7, 7, 7, 7, 7, 7, 7, 7, 7, 7, 7, 0]
      (bson_begin [26, 0, 0, 0, 12, 107, 0, 2, 0, 0, 0, 99, 0,
        7, 7, 7, 7, 7, 7, 7, 7, 7, 7, 7, 7, 0]) = bson_iterator_error 1 := by
  decide

/-- C5: FALSIFIED BY THE CODE (code bug).  The claim says the validator
recurses into exactly the document/array elements (tags 0x03/0x04).  Because
the recursion guard is inverted (`type != BSON_TYPE_DOCUMENT && type !=
BSON_TYPE_ARRAY`, bson-view.c line 90), the validator never recurses into a
document element: the buffer below contains an embedded document element
whose five value bytes `[05 00 00 00 FF]` are not a valid document (the
declared terminator byte is 0xFF, as the third conjunct shows), yet
validation succeeds. -/
theorem validator_skips_subdocument_recursion :
    bson_view_from_data [13, 0, 0, 0, 3, 107, 0, 5, 0, 0, 0, 255, 0] =
      (some [13, 0, 0, 0, 3, 107, 0, 5, 0, 0, 0, 255, 0], 0) ∧
    validate_document [13, 0, 0, 0, 3, 107, 0, 5, 0, 0, 0, 255, 0] 40 4 13 = .ret 0 ∧
    bson_view_from_data (([13, 0, 0, 0, 3, 107, 0, 5, 0, 0, 0, 255, 0].drop 7).take 5) =
      (none, 3) := by
  decide

/-- C6: FALSIFIED BY THE CODE (code bug).  The claim says an inserted binary
element stores a length prefix equal to the payload length and exactly that
many payload bytes.  `bson_insert_binary` (part_004 lines 683-703) computes
`size = data_len + 5`, then writes `size` as the length prefix and copies
`size` bytes from the payload — for a 1-byte payload it writes prefix 6 and
reads 6 bytes from a 1-byte buffer.  The model flags the out-of-bounds
payload read. -/
theorem insert_binary_overreads_payload :
    bson_insert_binary (fun n => some n) [5, 0, 0, 0, 0] [0] 4 [107] 0 [170] =
      .oobRead := by
  decide

/-- C7: CONFIRMED.  Failures of the mutation primitives are clean: whenever
`_bson_splice_region` signals failure (`none`, the C `NULL`), the buffer is
returned exactly as it was — no bytes are moved and no header is rewritten —
and, for a root document, failure happens precisely when the new size fails
the int32 range check or a growth is needed and either the 1024-byte headroom
add overflows int32 or the allocator refuses the request.  Likewise
`_bson_prep_element_region` leaves the document untouched and signals failure
(the end iterator in C) exactly when the element size computation overflows
or the underlying splice fails. -/
theorem mutation_failure_is_clean (alloc : Nat → Option Nat) (buf : List Nat)
    (path : List Nat) (off pos nDel nIns : Nat) (type : Nat) (key : List Nat)
    (datasize : Int) :
    ((bson_splice_region alloc buf path pos nDel nIns).2 = none →
      (bson_splice_region alloc buf path pos nDel nIns).1 = buf) ∧
    ((bson_splice_region alloc buf [off] pos nDel nIns).2 = none ↔
      (¬int32InRange ((readU32LE buf off : Int) + nIns - nDel) ∨
        (((readU32LE buf off : Int) + nIns - nDel) > (buf.length : Int) ∧
          (¬int32InRange ((readU32LE buf off : Int) + nIns - nDel + 1024) ∨
            alloc ((readU32LE buf off : Int) + nIns - nDel + 1024).toNat = none)))) ∧
    ((bson_prep_element_region alloc buf path pos type key datasize).2 = none →
      (bson_prep_element_region alloc buf path pos type key datasize).1 = buf) ∧
    ((bson_prep_element_region alloc buf path pos type key datasize).2 = none ↔
      (¬int32InRange (2 + (key.length : Int)) ∨
        ¬int32InRange (datasize + (2 + (key.length : Int))) ∨
        (bson_splice_region alloc buf path pos 0
          (datasize + (2 + (key.length : Int))).toNat).2 = none)) :=
  ⟨bson_splice_region_fail_unchanged alloc buf path pos nDel nIns,
   bson_splice_region_root_fail_iff alloc buf off pos nDel nIns,
   (bson_prep_element_region_fail alloc buf path pos type key datasize).1,
   (bson_prep_element_region_fail alloc buf path pos type key datasize).2⟩

/-- Witness for C7: with an allocator that always fails, splicing 4 bytes
into the full-capacity empty document fails and the buffer is returned
byte-for-byte unchanged. -/
theorem mutation_failure_is_clean_witness :
    (bson_splice_region (fun _ => none) [5, 0, 0, 0, 0] [0] 4 0 4).2 = none ∧
    (bson_splice_region (fun _ => none) [5, 0, 0, 0, 0] [0] 4 0 4).1 = [5, 0, 0, 0, 0] :=
  ⟨by decide,
   (mutation_failure_is_clean (fun _ => none) [5, 0, 0, 0, 0] [0] 0 4 0 4 0 [] 0).1
     (by decide)⟩

/-- C8 counterexample: the claim as stated is false at `val_maxlen = 4`.
Four bytes are available and the document-tag prefix reads as 0, so the claim
("requires at least 4 available bytes ...; reports a length error when fewer
than 4 bytes are available or when the resulting size exceeds max_len")
demands a successful size of 0; the oracle instead reports the length error
`-4`, because its guard is `val_maxlen > 4`, not `>= 4`. -/
theorem valsize_at_exactly_four_bytes :
    bson_valsize [0, 0, 0, 0] 0x3 0 4 = -4 ∧ readU32LE [0, 0, 0, 0] 0 = 0 := by
  decide

/-- C8 (amended): CONFIRMED as corrected.  For the length-prefixed tags the
oracle requires *more* than 4 available bytes (reporting the length error
`-4` whenever `val_maxlen <= 4`), and then returns `4 + p` for utf8 (0x02),
JS code (0x0d) and symbol (0x0e), exactly `p` for document (0x03) and array
(0x04), and `p + 4 + 1` for binary (0x05) — in each case only when the
result is *strictly less* than `val_maxlen`, reporting the length error when
the resulting size equals or exceeds `val_maxlen`. -/
theorem valsize_length_prefixed_amended (B : List Nat) (p : Nat) (m : Int) :
    (∀ t ∈ ([0x2, 0x3, 0x4, 0x5, 0xd, 0xe] : List Nat), m ≤ 4 →
      bson_valsize B t p m = -4) ∧
    (4 < m →
      (∀ t ∈ ([0x2, 0xd, 0xe] : List Nat),
        ((4 + (readU32LE B p : Int) < m →
            bson_valsize B t p m = 4 + readU32LE B p) ∧
          (m ≤ 4 + (readU32LE B p : Int) → bson_valsize B t p m = -4))) ∧
      (∀ t ∈ ([0x3, 0x4] : List Nat),
        (((readU32LE B p : Int) < m → bson_valsize B t p m = readU32LE B p) ∧
          (m ≤ (readU32LE B p : Int) → bson_valsize B t p m = -4))) ∧
      (((readU32LE B p : Int) + 4 + 1 < m →
          bson_valsize B 0x5 p m = (readU32LE B p : Int) + 4 + 1) ∧
        (m ≤ (readU32LE B p : Int) + 4 + 1 → bson_valsize B 0x5 p m = -4))) := by
  refine ⟨?_, ?_⟩
  · intro t ht hm
    fin_cases ht <;>
      · simp only [bson_valsize]
        rw [if_pos ⟨rfl, by omega⟩]
  · intro hm
    refine ⟨?_, ?_, ?_⟩
    · intro t ht
      fin_cases ht
      · have h2 := (bson_valsize_varsize_eval B p 0x2 m rfl (by decide) (by decide)).2 hm
        have e : constSizes 0x2 = 4 := rfl
        rw [e] at h2
        exact ⟨h2.1, h2.2⟩
      · have h2 := (bson_valsize_varsize_eval B p 0xd m rfl (by decide) (by decide)).2 hm
        have e : constSizes 0xd = 4 := rfl
        rw [e] at h2
        exact ⟨h2.1, h2.2⟩
      · have h2 := (bson_valsize_varsize_eval B p 0xe m rfl (by decide) (by decide)).2 hm
        have e : constSizes 0xe = 4 := rfl
        rw [e] at h2
        exact ⟨h2.1, h2.2⟩
    · intro t ht
      fin_cases ht
      · have h2 := (bson_valsize_varsize_eval B p 0x3 m rfl (by decide) (by decide)).2 hm
        have e : constSizes 0x3 = 0 := rfl
        rw [e] at h2
        exact ⟨fun hlt => by rw [h2.1 (by omega)]; omega, fun hge => h2.2 (by omega)⟩
      · have h2 := (bson_valsize_varsize_eval B p 0x4 m rfl (by decide) (by decide)).2 hm
        have e : constSizes 0x4 = 0 := rfl
        rw [e] at h2
        exact ⟨fun hlt => by rw [h2.1 (by omega)]; omega, fun hge => h2.2 (by omega)⟩
    · have h2 := (bson_valsize_varsize_eval B p 0x5 m rfl (by decide) (by decide)).2 hm
      have e : constSizes 0x5 = 5 := rfl
      rw [e] at h2
      exact ⟨fun hlt => by rw [h2.1 (by omega)]; omega, fun hge => h2.2 (by omega)⟩

/-- Witness for C8 (amended): a 2-byte utf8 string value within 7 available
bytes has size `4 + 2 = 6`. -/
theorem valsize_length_prefixed_amended_witness :
    bson_valsize [2, 0, 0, 0, 97, 0, 0] 0x2 0 7 =
      4 + readU32LE [2, 0, 0, 0, 97, 0, 0] 0 :=
  ((((valsize_length_prefixed_amended [2, 0, 0, 0, 97, 0, 0] 0 7).2 (by decide)).1)
      0x2 (by decide)).1 (by decide)

/-- Witness for C9: the canonical empty document yields a non-null view with
error code 0 and `bson_view_len` 5. -/
theorem bson_view_from_data_spec_witness :
    bson_view_from_data [5, 0, 0, 0, 0] = (some [5, 0, 0, 0, 0], 0) ∧
    bson_view_len (bson_view_from_data [5, 0, 0, 0, 0]).1 = readU32LE [5, 0, 0, 0, 0] 0 :=
  (((((bson_view_from_data_spec [5, 0, 0, 0, 0]).2 (by decide)).2 (by decide)
    (by decide)).2 (by decide)).2 (by decide))

/-- C10: CONFIRMED.  For every iterator in the valid-at-element state (the
state `_bson_iterator_at` establishes: not done, not errored, in-bounds, key
and value validated), `bson_next` yields an iterator whose `_rlen` is
strictly smaller — each advance consumes at least the type tag and the key's
NUL, and the recomputation of the value size against the `INT32_MAX` bound
returns the same value that was validated against the true remaining bound.
Consequently repeated `bson_next` reaches a done or errored iterator
(`bson_iterator_done`) after at most `_rlen` steps. -/
theorem bson_next_decreases_and_terminates (B : List Nat) (it : bson_iterator)
    (h : ValidIter B it) :
    (bson_next B it).rlen < it.rlen ∧
      ∃ n : Nat, (n : Int) ≤ it.rlen ∧
        bson_iterator_done (bson_iterN B n it) = true := by
  obtain ⟨h1, -, -, -, -, -, -⟩ := id h
  exact ⟨bson_next_rlen_lt B it h,
    ⟨it.rlen.toNat, by omega, bson_iterN_done B it.rlen.toNat it (Or.inl h) (by omega)⟩⟩

/-- Witness for C10: the iterator at the bool element of
`{"k": true}` = `[09 00 00 00 08 6b 00 01 00]` is valid-at-element, its
`bson_next` has strictly smaller `_rlen`, and iteration is done within 5
steps. -/
theorem bson_next_decreases_and_terminates_witness :
    (bson_next [9, 0, 0, 0, 8, 107, 0, 1, 0] ⟨4, 5, 1⟩).rlen < 5 ∧
      ∃ n : Nat, (n : Int) ≤ 5 ∧
        bson_iterator_done (bson_iterN [9, 0, 0, 0, 8, 107, 0, 1, 0] n ⟨4, 5, 1⟩) = true :=
  bson_next_decreases_and_terminates [9, 0, 0, 0, 8, 107, 0, 1, 0] ⟨4, 5, 1⟩ (by decide)
